import Mathlib

/-!
Verification development for the ORM base-layer fragment:
a custom enum column codec (extensions/sqlalchemy/types.py) and the
declarative base models with schema injection, timestamp bookkeeping and
UUID identity (models/base.py).

Modelling conventions:
- Python runtime values relevant to the codec are the inductive `PyVal`;
  database-side primitives (integers for the integer-backed specialization,
  text for the text-backed one) are `Prim`.
- An enumeration class is a name together with its canonical member list
  (member name, underlying primitive value). Python guarantees canonical
  members have pairwise distinct values (duplicates become aliases of the
  same object), which appears as a `Nodup` hypothesis where needed.
- Fallible operations return `Except String`, the error string standing for
  the raised exception class.
- Timestamps and UUIDs are opaque naturals supplied by the external
  utilities `utc_now` and `generate_uuid`, which live outside this fragment;
  they enter as parameters.
-/

namespace Spec2Proof

/-- Database-side primitive values: the integer-backed enum codec stores
integers, the text-backed one stores strings. -/
inductive Prim where
  | pint (n : Int)
  | pstr (s : String)
deriving DecidableEq

/-- Python runtime values seen by the codec: `None`, a raw primitive, an enum
member (tagged with its class name, member name and underlying value), or any
other object (opaque). -/
inductive PyVal where
  | vnone
  | vprim (p : Prim)
  | vmember (klass : String) (name : String) (val : Prim)
  | vother (n : Nat)
deriving DecidableEq

/-- An enumeration class: its name and its canonical members, each a pair of
member name and underlying primitive value. -/
structure EnumKlass where
  name : String
  members : List (String × Prim)

/-- Embeds the Python check `isinstance(value, self.enum_klass)`: true exactly
for enum-member values of that class. -/
def isInstanceOf (k : EnumKlass) : PyVal → Bool
  | .vmember kn _ _ => kn == k.name
  | _ => false

/-- Embeds the attribute access `value.value` of an enum member; on the other
constructors (never reached under the isinstance guard) it is the identity. -/
def memberValue : PyVal → PyVal
  | .vmember _ _ v => .vprim v
  | v => v

/-- Embeds `EnumType.process_bind_param`:
`return value.value if isinstance(value, self.enum_klass) else value`. -/
def process_bind_param (k : EnumKlass) (value : PyVal) : PyVal :=
  if isInstanceOf k value then memberValue value else value

/-- Embeds `EnumType.process_result_value`:
`return value if value is None else self.enum_klass(value)`.
The input domain is what the database driver delivers for this column: SQL
NULL (`none`) or a primitive of the backing kind. Calling the enumeration
class on a primitive performs the value-to-member lookup of `Enum.__call__`
and raises `ValueError` when no member has that underlying value. -/
def process_result_value (k : EnumKlass) (value : Option Prim) : Except String PyVal :=
  match value with
  | none => .ok .vnone
  | some p =>
    match k.members.find? (fun m => m.2 == p) with
    | some m => .ok (.vmember k.name m.1 m.2)
    | none => .error "ValueError"

/-- A concrete enumeration used to instantiate witness statements. -/
def colorEnum : EnumKlass :=
  ⟨"Color", [("RED", .pint 1), ("GREEN", .pint 2), ("BLUE", .pint 3)]⟩

/-- Values stored in a table-arguments mapping: the schema string or any
other (opaque) configuration value. -/
inductive TVal where
  | tstr (s : String)
  | tother (n : Nat)
deriving DecidableEq

/-- A Python mapping modelled as an insertion-ordered association list with
unique keys, as `dict` is. -/
abbrev Dict := List (String × TVal)

/-- Embeds Python mapping assignment `d[key] = v` (and equally the
copy-with-override `dict(d, key=v)`): overwrite the value at an existing key
in place, or append the new key at the end. -/
def dictSet : Dict → String → TVal → Dict
  | [], key, v => [(key, v)]
  | p :: rest, key, v =>
    if p.1 == key then (key, v) :: rest else p :: dictSet rest key v

/-- Embeds Python mapping lookup `d.get(key)`. -/
def dictGet : Dict → String → Option TVal
  | [], _ => none
  | p :: rest, key => if p.1 == key then some p.2 else dictGet rest key

/-- An element of a table-arguments tuple: a mapping, or any other object
(constraint, index, ... — opaque here). -/
inductive Item where
  | idict (d : Dict)
  | iother (n : Nat)
deriving DecidableEq

/-- The possible shapes of `__table_args__`: a mapping, a tuple, or anything
else (left untouched by the hooks). -/
inductive TableArgs where
  | tadict (d : Dict)
  | tatuple (items : List Item)
  | taother (n : Nat)
deriving DecidableEq

/-- Embeds the shared body of `TableArgsMeta.__new__` and
`Model.__init_subclass__` (both hooks run this same rewrite when the class
carries `__table_args__`):
if the arguments are a mapping, set its schema key; if they are a tuple whose
last element is a mapping (`table_args and isinstance(table_args[-1], dict)`),
replace that trailing mapping by a copy carrying the schema key; otherwise
(empty tuple, or last element not a mapping) append a fresh one-entry mapping.
Any other shape passes through unchanged. -/
def injectSchema (schema : String) : TableArgs → TableArgs
  | .tadict d => .tadict (dictSet d "schema" (.tstr schema))
  | .tatuple items =>
    match items.getLast? with
    | some (.idict d) => .tatuple (items.dropLast ++ [.idict (dictSet d "schema" (.tstr schema))])
    | _ => .tatuple (items ++ [.idict [("schema", .tstr schema)]])
  | .taother n => .taother n

/-- Modelled from the spec: the lazy/computed variant of the schema-injection
policy, a `__table_args__` computed property from a later revision of
`models/base.py` that is not present under src/. Per the spec, table
arguments are produced on first access and, if `schema` is falsy (missing
attribute or empty string), the access fails immediately with a configuration
error instead of deferring to a storage-layer failure. -/
def lazyTableArgs (schema : Option String) (base : TableArgs) : Except String TableArgs :=
  match schema with
  | none => .error "configuration error: schema is not set"
  | some s =>
    if s = "" then .error "configuration error: schema is not set"
    else .ok (injectSchema s base)

/-- An in-memory `RecordModel` instance as far as equality and hashing are
concerned: its concrete class name, the names of its proper superclasses
(together the method resolution order), and the integer form of its UUID id. -/
structure RInst where
  concreteClass : String
  superClasses : List String
  id : Nat
deriving DecidableEq

/-- The method resolution order of the instance class: itself then its
superclasses. -/
def mro (a : RInst) : List String := a.concreteClass :: a.superClasses

/-- Embeds `isinstance(x, K)`: the class `K` occurs in the method resolution
order of the class of `x`. -/
def isInstance (x : RInst) (klass : String) : Bool := (mro x).contains klass

/-- Embeds the method body of `RecordModel.__eq__`:
`isinstance(__value, self.__class__) and self.id == __value.id`. -/
def eqMethod (a b : RInst) : Bool := isInstance b a.concreteClass && a.id == b.id

/-- Embeds the Python expression `a == b` for two `RecordModel` instances,
including the CPython rich-comparison dispatch (`do_richcompare`): when the
type of the right operand is a proper subclass of the type of the left
operand, the reflected `b.__eq__(a)` is consulted first, otherwise
`a.__eq__(b)` is; classes are identified by name here. Since this `__eq__`
always returns a bool (never NotImplemented), the first method consulted
decides the outcome. -/
def pyEq (a b : RInst) : Bool :=
  if a.concreteClass ≠ b.concreteClass ∧ isInstance b a.concreteClass = true then
    eqMethod b a
  else
    eqMethod a b

/-- Embeds `RecordModel.__hash__`: `self.id.int`, the 128-bit integer form of
the UUID. -/
def recordHash (a : RInst) : Nat := a.id

/-- The ORM-level state that `RecordModel.__repr__` consults: the class name
and `inspect(self).identity`, which is `None` for a transient or otherwise
unintrospectable instance and the primary-key value (as its integer form)
when known. Inspection itself never raises on a mapped instance. -/
structure ObjState where
  className : String
  identity : Option Nat

/-- Embeds `RecordModel.__repr__`: it reads only `inspect(self).identity` and
formats a string, never touching a possibly expired attribute; the error side
of the return type records that no branch raises. -/
def reprRecord (o : ObjState) : Except String String :=
  match o.identity with
  | some i => .ok (o.className ++ "(id=" ++ toString i ++ ")")
  | none => .ok (o.className ++ "(id=None)")

/-- The mapped attributes a `TimestampedModel` instance carries, each `none`
when NULL/unset, plus the remaining attributes of the concrete subclass,
abstracted as `extra`. -/
structure TimestampedFields (α : Type) where
  created_at : Option Nat
  modified_at : Option Nat
  deleted_at : Option Nat
  extra : α

/-- Embeds `TimestampedModel.set_deleted_at`: `self.deleted_at = utc_now()`.
The current UTC timestamp comes from the external clock utility and enters as
the parameter. -/
def set_deleted_at {α : Type} (utc_now : Nat) (s : TimestampedFields α) : TimestampedFields α :=
  { s with deleted_at := some utc_now }

/-- A `RecordModel` instance as a bundle of its mapped attributes, each
`none` until assigned. -/
structure RecordInstance where
  id : Option Nat
  created_at : Option Nat
  modified_at : Option Nat
  deleted_at : Option Nat
deriving DecidableEq

/-- Embeds declarative construction `RecordModel()` with no keyword
arguments: every mapped attribute is unset (reads as None); column defaults
are not applied here — `default=` fires at flush time. -/
def constructRecord : RecordInstance := ⟨none, none, none, none⟩

/-- Embeds plain Python attribute assignment `obj.id = v`; the class installs
no guard against it. -/
def setIdAttr (r : RecordInstance) (v : Nat) : RecordInstance := { r with id := some v }

/-- Embeds the flush-time INSERT default application for the declared
columns: `id` has `default=generate_uuid` and `created_at` has
`default=utc_now`, both Python callables invoked client-side during flush for
attributes still unset; `modified_at` and `deleted_at` default to None. The
generated UUID and the current timestamp enter as parameters. -/
def flushInsert (generate_uuid utc_now : Nat) (r : RecordInstance) : RecordInstance :=
  { r with
    id := some (r.id.getD generate_uuid)
    created_at := some (r.created_at.getD utc_now) }

/-! Helper lemmas about the association-list mapping operations and member
lookup. -/

/-- Lookup by underlying value finds exactly the member pair when member
values are pairwise distinct. -/
theorem find_value_eq (l : List (String × Prim)) (n : String) (p : Prim)
    (hnd : (l.map Prod.snd).Nodup) (hm : (n, p) ∈ l) :
    l.find? (fun m => m.2 == p) = some (n, p) := by
  induction l with
  | nil => cases hm
  | cons a t ih =>
    rw [List.map_cons, List.nodup_cons] at hnd
    by_cases hap : a.2 = p
    · rw [List.find?_cons_of_pos _ (by simp [hap])]
      rcases List.mem_cons.mp hm with h | h
      · rw [h]
      · exact absurd (List.mem_map_of_mem Prod.snd h) (hap ▸ hnd.1)
    · rw [List.find?_cons_of_neg _ (by simp [hap])]
      apply ih hnd.2
      rcases List.mem_cons.mp hm with h | h
      · exact absurd (congrArg Prod.snd h.symm) hap
      · exact h

/-- Setting a key makes lookup of that key return the new value. -/
theorem dictGet_dictSet_self (d : Dict) (key : String) (v : TVal) :
    dictGet (dictSet d key v) key = some v := by
  induction d with
  | nil => simp [dictSet, dictGet]
  | cons p t ih =>
    by_cases h : p.1 = key
    · simp [dictSet, dictGet, h]
    · simp [dictSet, dictGet, h, ih]

/-- Setting a key leaves lookup of every other key unchanged. -/
theorem dictGet_dictSet_other (d : Dict) (key k2 : String) (v : TVal) (hne : k2 ≠ key) :
    dictGet (dictSet d key v) k2 = dictGet d k2 := by
  induction d with
  | nil => simp [dictSet, dictGet, Ne.symm hne]
  | cons p t ih =>
    by_cases h : p.1 = key
    · simp [dictSet, dictGet, h, Ne.symm hne]
    · by_cases h2 : p.1 = k2
      · simp [dictSet, dictGet, h, h2, hne]
      · simp [dictSet, dictGet, h, h2, ih]

/-- Setting the same key to the same value twice equals setting it once. -/
theorem dictSet_idem (d : Dict) (key : String) (v : TVal) :
    dictSet (dictSet d key v) key v = dictSet d key v := by
  induction d with
  | nil => simp [dictSet]
  | cons p t ih =>
    by_cases h : p.1 = key
    · simp [dictSet, h]
    · simp [dictSet, h, ih]

/-! Claim theorems. -/

/-- C1: for every member of the configured enumeration, decoding the encoding
of the member returns the member. Encoding an enum member yields its
underlying primitive, and decoding that primitive reconstructs exactly that
member; the Nodup hypothesis is the Python Enum invariant that canonical
members have pairwise distinct underlying values. -/
theorem enum_roundtrip (k : EnumKlass) (n : String) (p : Prim)
    (hnd : (k.members.map Prod.snd).Nodup) (hm : (n, p) ∈ k.members) :
    process_bind_param k (.vmember k.name n p) = .vprim p ∧
    process_result_value k (some p) = .ok (.vmember k.name n p) := by
  constructor
  · simp [process_bind_param, isInstanceOf, memberValue]
  · simp [process_result_value, find_value_eq k.members n p hnd hm]

/-- Witness for C1 at the concrete enumeration `colorEnum` and its member
RED with value 1. -/
theorem enum_roundtrip_witness :
    ((colorEnum.members.map Prod.snd).Nodup ∧ ("RED", Prim.pint 1) ∈ colorEnum.members) ∧
    (process_bind_param colorEnum (.vmember colorEnum.name "RED" (.pint 1)) = .vprim (.pint 1) ∧
     process_result_value colorEnum (some (.pint 1)) = .ok (.vmember colorEnum.name "RED" (.pint 1))) :=
  ⟨⟨by decide, by decide⟩, enum_roundtrip colorEnum "RED" (.pint 1) (by decide) (by decide)⟩

/-- C2: the schema-injection rewrite of table arguments. A mapping gets its
schema key set to the declared schema string with every other key preserved;
a tuple with a trailing mapping keeps its prefix and has the trailing mapping
replaced by a copy carrying the schema key; an empty tuple, or one whose last
element is not a mapping, gets a fresh one-entry mapping appended with all
existing entries preserved. -/
theorem inject_schema_cases (s : String) (d d2 : Dict) (items : List Item) (n : Nat) :
    (injectSchema s (.tadict d) = .tadict (dictSet d "schema" (.tstr s)) ∧
      dictGet (dictSet d "schema" (.tstr s)) "schema" = some (.tstr s) ∧
      ∀ key, key ≠ "schema" → dictGet (dictSet d "schema" (.tstr s)) key = dictGet d key) ∧
    (injectSchema s (.tatuple (items ++ [.idict d2])) =
      .tatuple (items ++ [.idict (dictSet d2 "schema" (.tstr s))])) ∧
    (injectSchema s (.tatuple []) = .tatuple [.idict [("schema", .tstr s)]]) ∧
    (injectSchema s (.tatuple (items ++ [.iother n])) =
      .tatuple (items ++ [.iother n, .idict [("schema", .tstr s)]])) := by
  refine ⟨⟨rfl, dictGet_dictSet_self d "schema" (.tstr s),
      fun key hk => dictGet_dictSet_other d "schema" key (.tstr s) hk⟩, ?_, rfl, ?_⟩
  · simp [injectSchema, List.getLast?_concat, List.dropLast_concat]
  · simp [injectSchema, List.getLast?_concat, List.dropLast_concat]

/-- Witness for C2: the preserved-key clause applied at a concrete mapping
and the non-schema key x. -/
theorem inject_schema_cases_witness :
    ("x" : String) ≠ "schema" ∧
    dictGet (dictSet [("x", TVal.tother 0)] "schema" (TVal.tstr "myschema")) "x" =
      dictGet [("x", TVal.tother 0)] "x" :=
  ⟨by decide,
    (inject_schema_cases "myschema" [("x", TVal.tother 0)] [] [] 0).1.2.2 "x" (by decide)⟩

/-- C3: on a concrete entity whose schema attribute is missing or falsy, the
lazy table-argument computation fails fast with a configuration error.
Settled against the spec-modelled lazy variant, whose source revision is not
under src/. -/
theorem lazy_schema_fail (schema : Option String) (base : TableArgs)
    (h : schema = none ∨ schema = some "") :
    lazyTableArgs schema base = .error "configuration error: schema is not set" := by
  rcases h with h | h <;> simp [lazyTableArgs, h]

/-- Witness for C3 at the falsy schema value given by the empty string. -/
theorem lazy_schema_fail_witness :
    ((some "" : Option String) = none ∨ (some "" : Option String) = some "") ∧
    lazyTableArgs (some "") (.tadict []) = .error "configuration error: schema is not set" :=
  ⟨Or.inr rfl, lazy_schema_fail (some "") (.tadict []) (Or.inr rfl)⟩

/-- C4: a == b holds iff a and b have the same concrete class and equal ids;
the hash is the integer form of the UUID id and consistent with this
equality; instances of different classes sharing an id are not equal. The
reflected-first dispatch makes the cross-class cases come out false: when the
right operand belongs to a proper subclass, its own isinstance check against
that subclass fails on the left operand. The hypothesis is well-formedness of
the class hierarchy — two distinct classes are never subclasses of each
other, which Python guarantees. -/
theorem py_eq_spec (a b : RInst)
    (h : a.concreteClass ≠ b.concreteClass →
      isInstance b a.concreteClass = false ∨ isInstance a b.concreteClass = false) :
    (pyEq a b = true ↔ (a.concreteClass = b.concreteClass ∧ a.id = b.id)) ∧
    (pyEq a b = true → recordHash a = recordHash b) ∧
    (a.concreteClass ≠ b.concreteClass → pyEq a b = false) := by
  by_cases hcc : a.concreteClass = b.concreteClass
  · have hinst : isInstance b b.concreteClass = true := by
      simp [isInstance, mro]
    have hif : pyEq a b = eqMethod a b := by
      simp [pyEq, hcc]
    refine ⟨?_, ?_, fun hne => absurd hcc hne⟩
    · rw [hif]
      simp [eqMethod, hcc, hinst]
    · rw [hif]
      intro ht
      have hid : a.id = b.id := by
        simpa [eqMethod, hcc, hinst] using ht
      simp [recordHash, hid]
  · have hfalse : pyEq a b = false := by
      rcases h hcc with hba | hab
      · simp [pyEq, eqMethod, hba, hcc]
      · by_cases hba : isInstance b a.concreteClass = true
        · simp [pyEq, eqMethod, hcc, hba, hab]
        · simp [pyEq, eqMethod, hcc, hba]
    refine ⟨?_, ?_, fun _ => hfalse⟩
    · rw [hfalse]
      simp [hcc]
    · intro ht
      rw [hfalse] at ht
      exact Bool.noConfusion ht

/-- Witness for C4: two Widget instances sharing id 3 are equal with equal
hash, and a Parent instance is not equal to an instance of the subclass Child
sharing id 5. -/
theorem py_eq_spec_witness :
    pyEq ⟨"Widget", [], 3⟩ ⟨"Widget", [], 3⟩ = true ∧
    recordHash (⟨"Widget", [], 3⟩ : RInst) = recordHash (⟨"Widget", [], 3⟩ : RInst) ∧
    pyEq ⟨"Parent", ["RecordModel"], 5⟩ ⟨"Child", ["Parent", "RecordModel"], 5⟩ = false := by
  refine ⟨?_, ?_, ?_⟩
  · exact (py_eq_spec ⟨"Widget", [], 3⟩ ⟨"Widget", [], 3⟩ (by decide)).1.mpr ⟨rfl, rfl⟩
  · exact (py_eq_spec ⟨"Widget", [], 3⟩ ⟨"Widget", [], 3⟩ (by decide)).2.1
      ((py_eq_spec ⟨"Widget", [], 3⟩ ⟨"Widget", [], 3⟩ (by decide)).1.mpr ⟨rfl, rfl⟩)
  · exact (py_eq_spec ⟨"Parent", ["RecordModel"], 5⟩ ⟨"Child", ["Parent", "RecordModel"], 5⟩
      (by decide)).2.2 (by decide)

/-- C5 counterexample: a freshly constructed instance has a null id, because
the declared default fires only at flush time; and the id attribute is not
enforced immutable — plain assignment after flush overwrites the flushed
value 1 with 7. -/
theorem record_id_cex :
    constructRecord.id = none ∧
    (flushInsert 1 2 constructRecord).id = some 1 ∧
    (setIdAttr (flushInsert 1 2 constructRecord) 7).id = some 7 :=
  ⟨rfl, rfl, rfl⟩

/-- C5 amended: the id is generated client-side by the UUID utility, but at
flush/insert time as the column default, not at object construction; a fresh
instance reads id as None until flushed, an explicitly assigned id survives
the flush unchanged, and nothing prevents reassignment afterwards. -/
theorem record_id_flush (g now v : Nat) :
    constructRecord.id = none ∧
    (flushInsert g now constructRecord).id = some g ∧
    (flushInsert g now (setIdAttr constructRecord v)).id = some v ∧
    (setIdAttr (flushInsert g now constructRecord) v).id = some v := by
  refine ⟨rfl, ?_, ?_, ?_⟩ <;> simp [constructRecord, flushInsert, setIdAttr]

/-- C6: decoding a non-null primitive that equals the underlying value of no
member of the configured enumeration raises ValueError, which propagates as
the error result; no default member is substituted. -/
theorem decode_nomatch (k : EnumKlass) (p : Prim)
    (h : ∀ m ∈ k.members, m.2 ≠ p) :
    process_result_value k (some p) = .error "ValueError" := by
  have hf : k.members.find? (fun m => m.2 == p) = none := by
    rw [List.find?_eq_none]
    intro m hm
    simpa using h m hm
  simp [process_result_value, hf]

/-- Witness for C6 at the primitive value 7, matched by no member of
`colorEnum`. -/
theorem decode_nomatch_witness :
    (∀ m ∈ colorEnum.members, m.2 ≠ Prim.pint 7) ∧
    process_result_value colorEnum (some (.pint 7)) = .error "ValueError" :=
  ⟨by decide, decode_nomatch colorEnum (.pint 7) (by decide)⟩

/-- C7: the representation never raises — both branches return a string —
and when the inspected identity is unavailable it is the id=None form. -/
theorem repr_total (o : ObjState) :
    (∃ s, reprRecord o = .ok s) ∧
    (o.identity = none → reprRecord o = .ok (o.className ++ "(id=None)")) := by
  cases h : o.identity with
  | none => exact ⟨⟨o.className ++ "(id=None)", by simp [reprRecord, h]⟩, fun _ => by simp [reprRecord, h]⟩
  | some i =>
    exact ⟨⟨o.className ++ "(id=" ++ toString i ++ ")", by simp [reprRecord, h]⟩, fun hc => by cases hc⟩

/-- Witness for C7 at a transient Widget whose identity is unavailable. -/
theorem repr_total_witness :
    (ObjState.mk "Widget" none).identity = none ∧
    reprRecord ⟨"Widget", none⟩ = .ok ((ObjState.mk "Widget" none).className ++ "(id=None)") :=
  ⟨rfl, (repr_total ⟨"Widget", none⟩).2 rfl⟩

/-- C8: encoding any value that is not an instance of the configured
enumeration — None included — returns it unchanged (the function is pure, so
there are no side effects), and decoding SQL NULL returns None unchanged. -/
theorem encode_passthrough (k : EnumKlass) (v : PyVal)
    (h : isInstanceOf k v = false) :
    process_bind_param k v = v ∧
    process_bind_param k .vnone = .vnone ∧
    process_result_value k none = .ok .vnone := by
  refine ⟨?_, rfl, rfl⟩
  simp [process_bind_param, h]

/-- Witness for C8 at the raw primitive 2, already of the backing kind. -/
theorem encode_passthrough_witness :
    isInstanceOf colorEnum (.vprim (.pint 2)) = false ∧
    process_bind_param colorEnum (.vprim (.pint 2)) = .vprim (.pint 2) :=
  ⟨rfl, (encode_passthrough colorEnum (.vprim (.pint 2)) rfl).1⟩

/-- C9: the soft-delete operation stamps deleted_at with the current UTC
time (non-null) and changes nothing else: created_at, modified_at and every
remaining attribute of the instance are untouched, and the record value
itself persists — no removal is performed. -/
theorem set_deleted_at_spec (α : Type) (utc_now : Nat) (s : TimestampedFields α) :
    (set_deleted_at utc_now s).deleted_at = some utc_now ∧
    (set_deleted_at utc_now s).created_at = s.created_at ∧
    (set_deleted_at utc_now s).modified_at = s.modified_at ∧
    (set_deleted_at utc_now s).extra = s.extra :=
  ⟨rfl, rfl, rfl, rfl⟩

/-- C10: the schema-injection rewrite is idempotent for a fixed schema
string, so a class processed by both the metaclass hook and the
subclass-definition hook ends with the same table arguments as after a
single application. -/
theorem inject_schema_idem (s : String) (t : TableArgs) :
    injectSchema s (injectSchema s t) = injectSchema s t := by
  cases t with
  | tadict d => simp [injectSchema, dictSet_idem]
  | taother n => rfl
  | tatuple items =>
    cases h : items.getLast? with
    | none =>
      have h1 : injectSchema s (.tatuple items) =
          .tatuple (items ++ [.idict [("schema", .tstr s)]]) := by
        simp [injectSchema, h]
      rw [h1]
      simp [injectSchema, List.getLast?_concat, List.dropLast_concat, dictSet]
    | some it =>
      cases it with
      | idict d =>
        have h1 : injectSchema s (.tatuple items) =
            .tatuple (items.dropLast ++ [.idict (dictSet d "schema" (.tstr s))]) := by
          simp [injectSchema, h]
        rw [h1]
        simp [injectSchema, List.getLast?_concat, List.dropLast_concat, dictSet_idem]
      | iother n =>
        have h1 : injectSchema s (.tatuple items) =
            .tatuple (items ++ [.idict [("schema", .tstr s)]]) := by
          simp [injectSchema, h]
        rw [h1]
        simp [injectSchema, List.getLast?_concat, List.dropLast_concat, dictSet]

end Spec2Proof
